import Mathlib

/-!
# Shallow embedding of `reviewio` (src/reviewio/cli.py)

`reviewio` is a reporting CLI that aggregates pull-request review statistics.
This file embeds the data model and the pure aggregation/filtering/rendering
core of `cli.py` in Lean 4 and proves the specification claims about it.

Modelling conventions:
* A `User` is identified by login, modelled as a `String` (the spec requires
  user equality to be by login).
* Timestamps are integers (seconds); `timedelta(days = d)` is `d * 86400`
  seconds.
* Python's `collections.Counter` is modelled as an association list
  `List (String × Nat)` in insertion order; `Counter.update` with a mapping
  performs `self[key] = count + self.get(key, 0)` for each key of the
  argument, creating missing keys (also keys mapped to 0), which
  `counterUpdate` mirrors.
* Python sets of users are modelled by deduplicated lists of logins
  (`List.dedup` keeps the first occurrence); set union of the three reviewer
  sources is the deduplication of their concatenation, which has the same
  elements.
* Fallible rendering code returns `Option`: `none` models a raised
  `ZeroDivisionError`.
-/

/-- A review: its author's login and its state string
(e.g. "APPROVED", "REQUEST_CHANGES", "COMMENTED"). -/
structure Review where
  user : String
  state : String
deriving DecidableEq, Repr

/-- An entry of a review-request list: either an individual user
(`NamedUser` in the GitHub API) or a team. Only `NamedUser` entries pass the
`isinstance(rev, NamedUser.NamedUser)` filter in `extract_reviewers`. -/
inductive RequestEntity where
  | namedUser (login : String)
  | team (name : String)
deriving DecidableEq, Repr

/-- The `isinstance(rev, NamedUser.NamedUser)` test. -/
def RequestEntity.isNamedUser : RequestEntity → Bool
  | .namedUser _ => true
  | .team _ => false

/-- The login of an individual user entry (teams are filtered out before
this is used; for a team we return its name, which never survives the
`isNamedUser` filter). -/
def RequestEntity.login : RequestEntity → String
  | .namedUser l => l
  | .team n => n

/-- A pull request: the metadata `cli.py` reads.  `requested_users` and
`requested_teams` are the two components of `get_review_requests()`. -/
structure PullRequest where
  author : String
  created_at : Int
  additions : Nat
  deletions : Nat
  labels : List String
  reviews : List Review
  requested_users : List RequestEntity
  requested_teams : List RequestEntity
deriving DecidableEq, Repr

/-! ## Counter (collections.Counter keyed by user login) -/

/-- A `Counter` is an association list from login to accumulated weight,
in insertion order, with no duplicate keys when built from `counterEmpty`
by `counterUpdate`. -/
abbrev Counter := List (String × Nat)

/-- `Counter()`. -/
def counterEmpty : Counter := []

/-- `c.get(k, 0)`: the value stored for key `k`, `0` when absent. -/
def counterGet : Counter → String → Nat
  | [], _ => 0
  | kv :: rest, k => if kv.1 = k then kv.2 else counterGet rest k

/-- `k in c`: whether key `k` is present (even with value 0). -/
def counterMem (c : Counter) (k : String) : Bool :=
  c.any (fun kv => kv.1 = k)

/-- One step of `Counter.update` with a mapping:
`self[k] = v + self.get(k, 0)` — add `v` to the entry for `k`, creating the
entry (at the end, matching dict insertion order) when missing. -/
def counterAdd (c : Counter) (k : String) (v : Nat) : Counter :=
  if counterMem c k then
    c.map (fun kv => if kv.1 = k then (kv.1, kv.2 + v) else kv)
  else
    c ++ [(k, v)]

/-- `Counter.update(m)` for a mapping `m`, processed in iteration order. -/
def counterUpdate (c : Counter) (m : List (String × Nat)) : Counter :=
  m.foldl (fun acc kv => counterAdd acc kv.1 kv.2) c

/-! ## Weight extractors (`extract_complex`, `extract_simple`) -/

/-- `extract_complex`: `pull_request.additions + pull_request.deletions`. -/
def extract_complex (pull_request : PullRequest) : Nat :=
  pull_request.additions + pull_request.deletions

/-- `extract_simple`: the constant `1`. -/
def extract_simple (_pull_request : PullRequest) : Nat :=
  1

/-! ## Reviewer extractor (`extract_reviewers`) -/

/-- The review states that make a review's author count as a reviewer. -/
def scoringStates : List String := ["APPROVED", "REQUEST_CHANGES"]

/-- The union of the three reviewer sources of `extract_reviewers`:
1. authors of reviews whose state is APPROVED or REQUEST_CHANGES;
2. entries of `get_review_requests()[0]` that are individual users;
3. entries of `get_review_requests()[1]` that are individual users.
Each source is a Python set; their union is modelled as the deduplicated
concatenation (same elements, each exactly once). -/
def reviewerLogins (pull_request : PullRequest) : List String :=
  (((pull_request.reviews.filter (fun rev => rev.state ∈ scoringStates)).map Review.user)
    ++ ((pull_request.requested_users.filter RequestEntity.isNamedUser).map RequestEntity.login)
    ++ ((pull_request.requested_teams.filter RequestEntity.isNamedUser).map RequestEntity.login)).dedup

/-- `extract_reviewers`: the dict comprehension
`{user: points for user in reduce(set.union, sources)}` — every user of the
union mapped to `points = extract_weight(pull_request)`. -/
def extract_reviewers (pull_request : PullRequest) (extract_weight : PullRequest → Nat) :
    List (String × Nat) :=
  (reviewerLogins pull_request).map (fun user => (user, extract_weight pull_request))

/-! ## Time filter (`time_condition`) -/

/-- `timedelta(days = d)` in seconds. -/
def daysToSeconds (d : Nat) : Int := (d : Int) * 86400

/-- `time_condition`: true iff the pull request's `created_at` matches the
given time frame, relative to `now` (`datetime.now()`).  `all` is always
true; `week`, `month`, `year` compare `created_at > now - delta` with deltas
of 7, 31 and 365 days; any other condition string returns false. -/
def time_condition (pull_request : PullRequest) (now : Int) (condition : String) : Bool :=
  if condition = "all" then
    true
  else
    match (if condition = "week" then some (daysToSeconds 7)
           else if condition = "month" then some (daysToSeconds 31)
           else if condition = "year" then some (daysToSeconds 365)
           else none) with
    | none => false
    | some delta => decide (pull_request.created_at > now - delta)

/-! ## Rendering (`print_bar`, `display_user_counter`) -/

/-- `print_bar(iteration, total, prefix, length)`.  The Python body divides
by `float(total)` (for the percentage) and by `total` (integer floor
division, for the filled bar width); both raise `ZeroDivisionError` when
`total == 0`, modelled as `none`.  Otherwise it echoes one line; we model
the data of that line: the label, the bar string
`'#' * filled + '-' * (length - filled)` and the raw `iteration` value.
The one-decimal float percentage is presentation only and is modelled by
the exact rational `iteration / total` it rounds. -/
def print_bar (iteration : Nat) (total : Nat) (label : String) (length : Nat) :
    Option (String × String × Nat × ℚ) :=
  if total = 0 then
    none
  else
    let filled : Nat := length * iteration / total
    let bar : String := String.mk (List.replicate filled '#' ++ List.replicate (length - filled) '-')
    some (label, bar, iteration, (iteration : ℚ) / (total : ℚ))

/-- `display_user_counter(counter, headline)`: computes
`total_sum = sum(counter.values())`, sorts the items by value descending
(Python's `sorted(..., key = value, reverse = True)` is a stable sort) and
prints a bar for each item with `length = 44`.  Returns the list of
rendered lines, or `none` when any `print_bar` call raises
`ZeroDivisionError`. -/
def display_user_counter (counter : Counter) : Option (List (String × String × Nat × ℚ)) :=
  let total_sum := (counter.map (fun kv => kv.2)).sum
  let sorted := counter.mergeSort (fun a b => b.2 ≤ a.2)
  sorted.mapM (fun kv => print_bar kv.2 total_sum kv.1 44)

/-! ## The `show` command's aggregation pipeline -/

/-- The body of the `show` loop for one pull request:
`review_counter.update(extract_reviewers(pull, extract_weight))` and
`creator_counter.update({pull.user: extract_weight(pull)})`.
The state is the pair (review_counter, creator_counter). -/
def processPull (extract_weight : PullRequest → Nat) (counters : Counter × Counter)
    (pull : PullRequest) : Counter × Counter :=
  (counterUpdate counters.1 (extract_reviewers pull extract_weight),
   counterUpdate counters.2 [(pull.author, extract_weight pull)])

/-- The label filtering step of `show`: when `label_list` is non-empty,
keep only pull requests whose label-name set contains every requested
label (`label_set <= set(l.name for l in p.labels)`); otherwise the list is
left untouched. -/
def filterLabels (label_list : List String) (pull_requests : List PullRequest) :
    List PullRequest :=
  if label_list.isEmpty then
    pull_requests
  else
    pull_requests.filter (fun p => label_list.all (fun l => l ∈ p.labels))

/-- The pure core of the `show` command, after the pull requests have been
fetched: filter by creation date (`time_condition`), choose the weight
extractor from `weight_method`, filter by labels, then fold the per-pull
update over fresh counters.  Returns (review_counter, creator_counter). -/
def show_aggregate (weight_method : String) (younger_than : String)
    (label_list : List String) (now : Int) (pull_requests : List PullRequest) :
    Counter × Counter :=
  let filtered := pull_requests.filter (fun request => time_condition request now younger_than)
  let extract_weight := if weight_method = "simple" then extract_simple else extract_complex
  let final := filterLabels label_list filtered
  final.foldl (processPull extract_weight) (counterEmpty, counterEmpty)

/-! ## Sample data (used by witnesses and the end-to-end scenario) -/

/-- A sample pull request used as a concrete input in witnesses. -/
def samplePull : PullRequest :=
  ⟨"alice", 0, 10, 5, ["bug"], [⟨"bob", "APPROVED"⟩], [], []⟩

/-- Scenario PR1: author A, approved by B, 10 additions and 5 deletions. -/
def scenarioPull1 : PullRequest := ⟨"A", 0, 10, 5, [], [⟨"B", "APPROVED"⟩], [], []⟩

/-- Scenario PR2: author B, approved by A, changes requested by C, 0/0. -/
def scenarioPull2 : PullRequest :=
  ⟨"B", 0, 0, 0, [], [⟨"A", "APPROVED"⟩, ⟨"C", "REQUEST_CHANGES"⟩], [], []⟩

/-- Scenario PR3: author A, no reviews, 0 additions and 0 deletions. -/
def scenarioPull3 : PullRequest := ⟨"A", 0, 0, 0, [], [], [], []⟩

/-! ## Counter lemmas -/

theorem counterGet_cons (kv : String × Nat) (rest : Counter) (k : String) :
    counterGet (kv :: rest) k = if kv.1 = k then kv.2 else counterGet rest k := rfl

theorem counterMem_cons (kv : String × Nat) (rest : Counter) (k : String) :
    counterMem (kv :: rest) k = (decide (kv.1 = k) || counterMem rest k) := by
  simp [counterMem]

theorem counterGet_of_counterMem_eq_false (c : Counter) (k : String)
    (h : counterMem c k = false) : counterGet c k = 0 := by
  induction c with
  | nil => rfl
  | cons kv rest ih =>
    rw [counterMem_cons, Bool.or_eq_false_iff, decide_eq_false_iff_not] at h
    rw [counterGet_cons, if_neg h.1]
    exact ih h.2

theorem counterGet_append (c d : Counter) (k : String) :
    counterGet (c ++ d) k = if counterMem c k then counterGet c k else counterGet d k := by
  induction c with
  | nil => simp [counterMem, counterGet]
  | cons kv rest ih =>
    rw [List.cons_append, counterGet_cons, counterGet_cons, counterMem_cons]
    by_cases hk : kv.1 = k
    · simp [hk]
    · simp [hk, ih]

theorem counterGet_map_bump (c : Counter) (k : String) (v : Nat) (q : String) :
    counterGet (c.map (fun kv => if kv.1 = k then (kv.1, kv.2 + v) else kv)) q
      = counterGet c q + (if counterMem c q = true ∧ k = q then v else 0) := by
  induction c with
  | nil => simp [counterGet, counterMem]
  | cons kv rest ih =>
    rw [List.map_cons, counterGet_cons, counterGet_cons, counterMem_cons]
    by_cases hk : kv.1 = k
    · by_cases hq : kv.1 = q
      · have hkq : k = q := hq ▸ hk ▸ rfl
        simp [hk, hq, hkq]
      · have hkq : ¬ k = q := fun h => hq (h ▸ hk)
        simp [hk, hq, hkq, ih]
    · by_cases hq : kv.1 = q
      · have hqk : ¬ q = k := fun h => hk (hq.trans h)
        have hkq : ¬ k = q := fun h => hqk h.symm
        simp [hk, hq, hqk, hkq]
      · simp [hk, hq, ih]

theorem counterGet_counterAdd (c : Counter) (k : String) (v : Nat) (q : String) :
    counterGet (counterAdd c k v) q = counterGet c q + (if k = q then v else 0) := by
  unfold counterAdd
  by_cases hm : counterMem c k
  · rw [if_pos hm, counterGet_map_bump]
    by_cases hkq : k = q
    · subst hkq; simp [hm]
    · simp [hkq]
  · rw [if_neg hm, counterGet_append]
    by_cases hq : counterMem c q
    · have hkq : ¬ k = q := by
        intro h; subst h; exact hm hq
      simp [hq, hkq]
    · simp only [Bool.not_eq_true] at hq
      rw [if_neg (by simp [hq]), counterGet_of_counterMem_eq_false c q hq]
      simp [counterGet]

theorem counterMem_map_bump (c : Counter) (k : String) (v : Nat) (q : String) :
    counterMem (c.map (fun kv => if kv.1 = k then (kv.1, kv.2 + v) else kv)) q
      = counterMem c q := by
  induction c with
  | nil => rfl
  | cons kv rest ih =>
    rw [List.map_cons, counterMem_cons, counterMem_cons, ih]
    by_cases hk : kv.1 = k
    · simp [hk]
    · simp [hk]

theorem counterMem_counterAdd (c : Counter) (k : String) (v : Nat) (q : String) :
    counterMem (counterAdd c k v) q = (counterMem c q || decide (k = q)) := by
  unfold counterAdd
  by_cases hm : counterMem c k
  · rw [if_pos hm, counterMem_map_bump]
    by_cases hkq : k = q
    · subst hkq; simp [hm]
    · simp [hkq]
  · rw [if_neg hm]
    unfold counterMem
    rw [List.any_append]
    simp [List.any_cons]

theorem counterUpdate_cons (c : Counter) (a : String × Nat) (m : List (String × Nat)) :
    counterUpdate c (a :: m) = counterUpdate (counterAdd c a.1 a.2) m := rfl

theorem counterGet_counterUpdate (c : Counter) (m : List (String × Nat)) (k : String) :
    counterGet (counterUpdate c m) k
      = counterGet c k + (m.map (fun kv => if kv.1 = k then kv.2 else 0)).sum := by
  induction m generalizing c with
  | nil => simp [counterUpdate]
  | cons a m ih =>
    rw [counterUpdate_cons, ih, counterGet_counterAdd]
    simp only [List.map_cons, List.sum_cons]
    have : (if a.1 = k then a.2 else 0) = (if a.1 = k then a.2 else 0) := rfl
    omega

theorem counterMem_counterUpdate (c : Counter) (m : List (String × Nat)) (k : String) :
    counterMem (counterUpdate c m) k = (counterMem c k || m.any (fun kv => kv.1 = k)) := by
  induction m generalizing c with
  | nil => simp [counterUpdate]
  | cons a m ih =>
    rw [counterUpdate_cons, ih, counterMem_counterAdd]
    simp [Bool.or_assoc]

theorem counterGet_le_counterUpdate (c : Counter) (m : List (String × Nat)) (k : String) :
    counterGet c k ≤ counterGet (counterUpdate c m) k := by
  rw [counterGet_counterUpdate]; exact Nat.le_add_right _ _

theorem counterMem_le_counterUpdate (c : Counter) (m : List (String × Nat)) (k : String)
    (h : counterMem c k = true) : counterMem (counterUpdate c m) k = true := by
  rw [counterMem_counterUpdate, h, Bool.true_or]

/-! ## Aggregation lemmas -/

theorem foldl_processPull_counterGet_le (w : PullRequest → Nat) (pulls : List PullRequest)
    (cs : Counter × Counter) (u : String) :
    counterGet cs.1 u ≤ counterGet (pulls.foldl (processPull w) cs).1 u ∧
    counterGet cs.2 u ≤ counterGet (pulls.foldl (processPull w) cs).2 u := by
  induction pulls generalizing cs with
  | nil => exact ⟨le_refl _, le_refl _⟩
  | cons p ps ih =>
    rw [List.foldl_cons]
    exact ⟨le_trans (counterGet_le_counterUpdate _ _ _) (ih (processPull w cs p)).1,
           le_trans (counterGet_le_counterUpdate _ _ _) (ih (processPull w cs p)).2⟩

theorem foldl_processPull_counterMem (w : PullRequest → Nat) (pulls : List PullRequest)
    (cs : Counter × Counter) (u : String) :
    (counterMem cs.1 u = true → counterMem (pulls.foldl (processPull w) cs).1 u = true) ∧
    (counterMem cs.2 u = true → counterMem (pulls.foldl (processPull w) cs).2 u = true) := by
  induction pulls generalizing cs with
  | nil => exact ⟨fun h => h, fun h => h⟩
  | cons p ps ih =>
    rw [List.foldl_cons]
    exact ⟨fun h => (ih (processPull w cs p)).1 (counterMem_le_counterUpdate _ _ _ h),
           fun h => (ih (processPull w cs p)).2 (counterMem_le_counterUpdate _ _ _ h)⟩

/-! ## Reviewer-source lemmas -/

theorem mem_filter_namedUser_login (l : List RequestEntity) (u : String) :
    u ∈ (l.filter RequestEntity.isNamedUser).map RequestEntity.login ↔
      RequestEntity.namedUser u ∈ l := by
  induction l with
  | nil => simp
  | cons e rest ih =>
    cases e with
    | namedUser s =>
      simp [RequestEntity.isNamedUser, RequestEntity.login, List.filter_cons, ih, eq_comm]
    | team s =>
      simp [RequestEntity.isNamedUser, List.filter_cons, ih]

theorem mem_reviewerLogins (pull : PullRequest) (u : String) :
    u ∈ reviewerLogins pull ↔
      ((∃ rev ∈ pull.reviews, rev.user = u ∧
          (rev.state = "APPROVED" ∨ rev.state = "REQUEST_CHANGES"))
        ∨ RequestEntity.namedUser u ∈ pull.requested_users
        ∨ RequestEntity.namedUser u ∈ pull.requested_teams) := by
  unfold reviewerLogins
  rw [List.mem_dedup, List.mem_append, List.mem_append,
    mem_filter_namedUser_login, mem_filter_namedUser_login]
  simp only [List.mem_map, List.mem_filter, scoringStates, List.mem_cons,
    List.not_mem_nil, or_false, decide_eq_true_eq]
  constructor
  · rintro ((⟨r, ⟨hr, hs⟩, hu⟩ | h) | h)
    · exact Or.inl ⟨r, hr, hu, hs⟩
    · exact Or.inr (Or.inl h)
    · exact Or.inr (Or.inr h)
  · rintro (⟨r, hr, hu, hs⟩ | h | h)
    · exact Or.inl (Or.inl ⟨r, ⟨hr, hs⟩, hu⟩)
    · exact Or.inl (Or.inr h)
    · exact Or.inr h

/-! ## Claim theorems -/

/-- Claim C1 (code bug): the spec requires the ranked bar chart to guard the
division by `total == 0` and "display zero entries rather than failing", for
every counter whose values sum to 0.  The code has no such guard:
`print_bar` divides by `total` unconditionally, so a counter that does have
entries but whose values sum to 0 (e.g. the single entry `alice` with weight
0, produced by a pull request with 0 additions and 0 deletions under the
`changes` weight method) raises `ZeroDivisionError` (`none`).  Only the
empty counter renders without a division, because no bar is printed at
all. -/
theorem display_user_counter_zero_total_division :
    display_user_counter [("alice", 0)] = none ∧ display_user_counter [] = some [] := by
  constructor
  · simp [display_user_counter, List.mergeSort_singleton, print_bar, List.mapM.loop]
  · simp [display_user_counter, List.mergeSort_nil, List.mapM.loop]

/-- Claim C2: for every pull request and weight function, `extract_reviewers`
returns a mapping whose key set is exactly the union of (a) authors of
reviews in state APPROVED or REQUEST_CHANGES and (b) individually requested
reviewers (team entries excluded) from either component of
`get_review_requests()`, and every user in that union maps to exactly one
entry (the keys are duplicate-free) whose value is `extract_weight`
applied to the pull request, no matter how many sources contain the user. -/
theorem extract_reviewers_union_once (pull : PullRequest) (w : PullRequest → Nat) :
    ((extract_reviewers pull w).map Prod.fst).Nodup ∧
    ∀ u v, (u, v) ∈ extract_reviewers pull w ↔
      (((∃ rev ∈ pull.reviews, rev.user = u ∧
            (rev.state = "APPROVED" ∨ rev.state = "REQUEST_CHANGES"))
        ∨ RequestEntity.namedUser u ∈ pull.requested_users
        ∨ RequestEntity.namedUser u ∈ pull.requested_teams) ∧ v = w pull) := by
  constructor
  · have h : ((extract_reviewers pull w).map Prod.fst) = reviewerLogins pull := by
      have hcomp : (Prod.fst ∘ fun user : String => (user, w pull)) =
          fun user : String => user := rfl
      simp [extract_reviewers, List.map_map, hcomp]
    rw [h]
    exact List.nodup_dedup _
  · intro u v
    rw [extract_reviewers, List.mem_map]
    constructor
    · rintro ⟨a, ha, heq⟩
      rw [Prod.mk.injEq] at heq
      obtain ⟨rfl, rfl⟩ := heq
      exact ⟨(mem_reviewerLogins pull a).mp ha, rfl⟩
    · rintro ⟨hu, rfl⟩
      exact ⟨u, (mem_reviewerLogins pull u).mpr hu, rfl⟩

/-- Claim C3: end-to-end with the `changes` weight method over the three
scenario pull requests (PR1: author A, approved by B, 10 additions, 5
deletions; PR2: author B, approved by A and changes requested by C, 0
additions, 0 deletions; PR3: author A, no reviews),
the final creator counter is exactly A ↦ 15, B ↦ 0 and the final reviewer
counter is exactly B ↦ 15, A ↦ 0, C ↦ 0 (in processing order, with the
zero-weight entries present). -/
theorem show_changes_end_to_end :
    (show_aggregate "changes" "all" [] 0 [scenarioPull1, scenarioPull2, scenarioPull3]).1
        = [("B", 15), ("A", 0), ("C", 0)] ∧
    (show_aggregate "changes" "all" [] 0 [scenarioPull1, scenarioPull2, scenarioPull3]).2
        = [("A", 15), ("B", 0)] := by
  constructor <;> rfl

/-- Claim C4: `time_condition` with window `all` is true for every pull
request; with `week`, `month` and `year` it is true exactly when the
creation timestamp is strictly greater than `now` minus 7, 31 and 365 days
respectively, and a pull request created exactly at `now` minus the delta
is excluded. -/
theorem time_condition_windows (pull : PullRequest) (now : Int) :
    time_condition pull now "all" = true ∧
    (time_condition pull now "week" = true ↔ now - daysToSeconds 7 < pull.created_at) ∧
    (time_condition pull now "month" = true ↔ now - daysToSeconds 31 < pull.created_at) ∧
    (time_condition pull now "year" = true ↔ now - daysToSeconds 365 < pull.created_at) ∧
    time_condition { pull with created_at := now - daysToSeconds 7 } now "week" = false ∧
    time_condition { pull with created_at := now - daysToSeconds 31 } now "month" = false ∧
    time_condition { pull with created_at := now - daysToSeconds 365 } now "year" = false := by
  refine ⟨by simp [time_condition], by simp [time_condition], by simp [time_condition],
    by simp [time_condition], by simp [time_condition], by simp [time_condition],
    by simp [time_condition]⟩

/-- Claim C5: for every window token outside `week`, `month`, `year`, `all`,
`time_condition` returns false (it is a total function, so no error is
raised); an unrecognized token therefore silently filters out every pull
request. -/
theorem time_condition_unrecognized (pull : PullRequest) (now : Int) (condition : String)
    (h : condition ∉ ["week", "month", "year", "all"]) :
    time_condition pull now condition = false := by
  simp only [List.mem_cons, List.mem_singleton, not_or] at h
  obtain ⟨h1, h2, h3, h4⟩ := h
  simp [time_condition, h1, h2, h3, h4]

/-- Witness for C5 at the concrete unrecognized token "fortnight". -/
theorem time_condition_unrecognized_witness :
    time_condition samplePull 0 "fortnight" = false :=
  time_condition_unrecognized samplePull 0 "fortnight" (by decide)

/-- Claim C6: the weight extractor in `simple` mode returns the constant 1
for every pull request, and in `changes` mode returns additions plus
deletions, in particular 0 when both are 0. -/
theorem weight_extractor_modes (pull : PullRequest) :
    extract_simple pull = 1 ∧
    extract_complex pull = pull.additions + pull.deletions ∧
    extract_complex { pull with additions := 0, deletions := 0 } = 0 :=
  ⟨rfl, rfl, rfl⟩

/-- Claim C7: the label filtering step of `show` keeps a pull request iff
every requested label occurs among the pull request's label names (the
requested set is a subset of the label set), and with an empty request list
the pull-request list is returned unchanged, so every pull request is
kept. -/
theorem label_filter_subset (label_list : List String) (pulls : List PullRequest)
    (pull : PullRequest) :
    (pull ∈ filterLabels label_list pulls ↔
      pull ∈ pulls ∧ ∀ l ∈ label_list, l ∈ pull.labels) ∧
    filterLabels [] pulls = pulls := by
  constructor
  · unfold filterLabels
    by_cases hl : label_list.isEmpty = true
    · rw [if_pos hl]
      rw [List.isEmpty_iff] at hl
      subst hl
      simp
    · rw [if_neg hl]
      simp [List.mem_filter, List.all_eq_true]
  · rfl

/-- Claim C8: the counters only ever grow.  For every weight function,
counter pair, pull request and user: one step of the `show` loop never
decreases the user's accumulated value in either the reviewer or the
creator counter and never removes a present entry, and the same holds
across the whole fold over any list of pull requests.  Values live in `ℕ`
(additions and deletions are non-negative), so no entry is ever
negative. -/
theorem counters_monotone (w : PullRequest → Nat) (cs : Counter × Counter)
    (pull : PullRequest) (pulls : List PullRequest) (u : String) :
    counterGet cs.1 u ≤ counterGet (processPull w cs pull).1 u ∧
    counterGet cs.2 u ≤ counterGet (processPull w cs pull).2 u ∧
    (counterMem cs.1 u = true → counterMem (processPull w cs pull).1 u = true) ∧
    (counterMem cs.2 u = true → counterMem (processPull w cs pull).2 u = true) ∧
    counterGet cs.1 u ≤ counterGet (pulls.foldl (processPull w) cs).1 u ∧
    counterGet cs.2 u ≤ counterGet (pulls.foldl (processPull w) cs).2 u :=
  ⟨counterGet_le_counterUpdate _ _ _,
   counterGet_le_counterUpdate _ _ _,
   counterMem_le_counterUpdate _ _ _,
   counterMem_le_counterUpdate _ _ _,
   (foldl_processPull_counterGet_le w pulls cs u).1,
   (foldl_processPull_counterGet_le w pulls cs u).2⟩

/-- Witness for C8: a present entry stays present after one step. -/
theorem counters_monotone_witness :
    counterMem ([("alice", 1)] : Counter) "alice" = true ∧
    counterMem (processPull extract_complex ([("alice", 1)], [("alice", 1)]) samplePull).1
      "alice" = true :=
  ⟨by decide,
   (counters_monotone extract_complex ([("alice", 1)], [("alice", 1)])
      samplePull [] "alice").2.2.1 (by decide)⟩

/-- Claim C9: aggregation is deterministic — two aggregator instances that
both start from fresh (empty) counters and process the same fixed list of
pull requests end with identical reviewer and creator counters.  The
embedding is a pure function of its inputs, so the result depends on
nothing but the pull-request list and the weight function. -/
theorem aggregator_deterministic (w : PullRequest → Nat) (pulls : List PullRequest)
    (a1 a2 : Counter × Counter)
    (h1 : a1 = (counterEmpty, counterEmpty)) (h2 : a2 = (counterEmpty, counterEmpty)) :
    pulls.foldl (processPull w) a1 = pulls.foldl (processPull w) a2 := by
  rw [h1, h2]

/-- Witness for C9 on a concrete one-element pull-request list. -/
theorem aggregator_deterministic_witness :
    ((counterEmpty, counterEmpty) : Counter × Counter) = (counterEmpty, counterEmpty) ∧
    [samplePull].foldl (processPull extract_simple) (counterEmpty, counterEmpty)
      = [samplePull].foldl (processPull extract_simple) (counterEmpty, counterEmpty) :=
  ⟨rfl, aggregator_deterministic extract_simple [samplePull]
    (counterEmpty, counterEmpty) (counterEmpty, counterEmpty) rfl rfl⟩

/-- Claim C10: the time windows are nested — acceptance for `week` implies
acceptance for `month`, `month` implies `year`, and `year` implies `all`,
for every pull request and fixed current time. -/
theorem time_windows_nested (pull : PullRequest) (now : Int) :
    (time_condition pull now "week" = true → time_condition pull now "month" = true) ∧
    (time_condition pull now "month" = true → time_condition pull now "year" = true) ∧
    (time_condition pull now "year" = true → time_condition pull now "all" = true) := by
  simp [time_condition, daysToSeconds]
  refine ⟨?_, ?_⟩ <;> · intro h; omega

/-- Witness for C10: a pull request created at the current instant is
accepted for `week`, hence for `month`. -/
theorem time_windows_nested_witness :
    time_condition samplePull 0 "week" = true ∧ time_condition samplePull 0 "month" = true :=
  ⟨by decide, (time_windows_nested samplePull 0).1 (by decide)⟩
